import Mathlib

/-!
Verification of the plugin indexing core of reckless
(src/reckless_github/src/repository.rs).

The filesystem the code walks is embedded as a small tree: the repository
root path (as a list of components) together with the immediate children of
the root, where a child directory carries its own immediate entries.  The
code never inspects anything deeper than the names of the entries two levels
below the root, so this depth suffices.  All directories are assumed
enumerable; a file whose bytes are not valid UTF-8 models a failing
read_to_string call.  The configuration parser (serde_yaml into
reckless_lib::plugin_conf::Conf) is an external collaborator per the design
and is injected as a function argument.
-/

namespace Reckless

/-- Implementation language of a plugin: the closed enumeration of
reckless_lib::plugin::PluginLang used by repository.rs. -/
inductive PluginLang
  | Python
  | Go
  | Rust
  | Dart
  | JavaScript
  | TypeScript
  | Unknown
deriving DecidableEq

/-- Modelled from the spec: the per-plugin Configuration
(reckless_lib::plugin_conf::Conf, whose source is not under src/) is an
opaque structured value deserialized from text; the core observes only its
presence and identity. -/
structure Conf where
  raw : String
deriving DecidableEq

/-- Modelled from the spec: Plugin (reckless_lib::plugin::Plugin, whose
source is not under src/) carries name, path, detected language and the
optional configuration, in the argument order of Plugin::new at line 106. -/
structure Plugin where
  name : String
  path : List String
  lang : PluginLang
  conf : Option Conf
deriving DecidableEq

/-- What reading the bytes of a file as text yields: read_to_string succeeds
exactly on valid UTF-8 content. -/
inductive FileContent
  | utf8 (text : String)
  | nonUtf8
deriving DecidableEq

/-- One filesystem entry: a plain file with its content, or a directory with
its immediate children. -/
inductive FsEntry
  | file (name : String) (content : FileContent)
  | dir (name : String) (children : List FsEntry)

/-- The base name of an entry, as DirEntry::file_name returns it. -/
def FsEntry.name : FsEntry → String
  | .file n _ => n
  | .dir n _ => n

def FsEntry.isFile : FsEntry → Bool
  | .file _ _ => true
  | .dir _ _ => false

/-- The local repository tree: the absolute path of the root, as components,
and the immediate children of the root.  Paths that leave this tree (for
example the parent directory of the root) resolve to nothing. -/
structure Fs where
  rootPath : List String
  rootChildren : List FsEntry

/-- Base name of the repository root. -/
def rootBase (fs : Fs) : String := fs.rootPath.getLastD ("")

/-- is_hidden of repository.rs lines 30-36: the entry name starts with a
dot, that is, its first character is a dot (starts_with applied to the
one-character pattern). -/
def is_hidden (name : String) : Bool :=
  match name.data with
  | [] => false
  | c :: _ => c == '.'

/-- The marker-file match of index_repository lines 74-82; the default arm
is a continue that keeps the previous language, modelled as none. -/
def markerLang : String → Option PluginLang
  | "requirements.txt" => some PluginLang.Python
  | "go.mod" => some PluginLang.Go
  | "cargo.toml" => some PluginLang.Rust
  | "pubspec.yaml" => some PluginLang.Dart
  | "package.json" => some PluginLang.JavaScript
  | "tsconfig.json" => some PluginLang.TypeScript
  | _ => none

/-- Modelled from the spec: get_plugin_info_from_path (reckless_lib::utils,
whose source is not under src/) derives the plugin path and plugin name from
the path of a scanned file: the parent directory of that path and the base
name of that parent. -/
def get_plugin_info_from_path (p : List String) : List String × String :=
  (p.dropLast, p.dropLast.getLastD (""))

/-- One step of the per-file loop of index_repository lines 68-83: every
scanned file overwrites path_to_plugin and plugin_name; a marker match
overwrites plugin_lang and any other file name leaves it unchanged (the
continue arm).  The accumulator is (path_to_plugin, plugin_name,
plugin_lang). -/
def scanStep (acc : List String × String × PluginLang) (f : List String × String) :
    List String × String × PluginLang :=
  ((get_plugin_info_from_path f.1).1, (get_plugin_info_from_path f.1).2,
    (markerLang f.2).getD acc.2.2)

/-- The entries yielded by the inner WalkDir of line 67 (max_depth 1 and no
hidden filter) over one outer entry at the given full path: the entry itself
first and then, for a directory, its immediate children, each as a pair of
full path and file_name. -/
def scanFiles (path : List String) : FsEntry → List (List String × String)
  | .file n _ => [(path, n)]
  | .dir n cs => (path, n) :: cs.map (fun c => (path ++ [c.name], c.name))

/-- The values of path_to_plugin, plugin_name and plugin_lang after the inner
scan of one outer entry, starting from the initial values of lines 62-64. -/
def scanInfo (path : List String) (e : FsEntry) : List String × String × PluginLang :=
  (scanFiles path e).foldl scanStep ([], "", PluginLang.Unknown)

/-- Strip a leading run of path components: some rest when the second list
is the first followed by rest. -/
def dropComponents : List String → List String → Option (List String)
  | [], ys => some ys
  | _ :: _, [] => none
  | x :: xs, y :: ys => if x = y then dropComponents xs ys else none

/-- First entry with the given base name. -/
def lookupEntry (es : List FsEntry) (n : String) : Option FsEntry :=
  es.find? (fun e => e.name == n)

/-- Resolve an absolute path against the repository tree.  Paths outside the
tree resolve to none and a File::open on them fails. -/
def resolve (fs : Fs) (path : List String) : Option FsEntry :=
  match dropComponents fs.rootPath path with
  | none => none
  | some [] => some (FsEntry.dir (rootBase fs) fs.rootChildren)
  | some [c] => lookupEntry fs.rootChildren c
  | some [c, f] =>
    match lookupEntry fs.rootChildren c with
    | some (FsEntry.dir _ cs) => lookupEntry cs f
    | _ => none
  | some _ => none

/-- Outcome of the configuration loop of index_repository lines 87-98. -/
inductive ConfResult
  | ok (conf : Option Conf)
  | readErr
  | parseFail
deriving DecidableEq

/-- The configuration loop body over the remaining candidate file names: if
File::open succeeds the text is read (a failing read_to_string is propagated
as an error by the question mark operator at line 92) and parsed (the
serde_yaml unwrap at line 95 panics when parsing fails); a successful parse
overwrites conf.  Opening a directory succeeds on Linux and the read then
fails. -/
def loadConfAux (fs : Fs) (parse : String → Option Conf) (dirPath : List String) :
    List String → Option Conf → ConfResult
  | [], acc => ConfResult.ok acc
  | c :: rest, acc =>
    match resolve fs (dirPath ++ [c]) with
    | some (FsEntry.file _ (FileContent.utf8 text)) =>
      match parse text with
      | some v => loadConfAux fs parse dirPath rest (some v)
      | none => ConfResult.parseFail
    | some (FsEntry.file _ FileContent.nonUtf8) => ConfResult.readErr
    | some (FsEntry.dir _ _) => ConfResult.readErr
    | none => loadConfAux fs parse dirPath rest acc

/-- The configuration loop of lines 87-98 over the fixed candidate list. -/
def loadConf (fs : Fs) (parse : String → Option Conf) (dirPath : List String) :
    ConfResult :=
  loadConfAux fs parse dirPath ["reckless.yaml", "reckless.yml"] none

/-- Result of processing one outer entry of the loop at lines 59-116. -/
inductive StepResult
  | plugin (p : Plugin)
  | err (msg : String)
  | panicked
deriving DecidableEq

/-- The loop body of lines 61-113 for one outer entry: inner scan for
path, name and language, then the configuration lookup, then Plugin::new. -/
def processEntry (fs : Fs) (parse : String → Option Conf)
    (oe : List String × FsEntry) : StepResult :=
  match loadConf fs parse (scanInfo oe.1 oe.2).1 with
  | ConfResult.ok conf =>
    StepResult.plugin
      (Plugin.mk (scanInfo oe.1 oe.2).2.1 (scanInfo oe.1 oe.2).1
        (scanInfo oe.1 oe.2).2.2 conf)
  | ConfResult.readErr => StepResult.err ("configuration file read failed")
  | ConfResult.parseFail => StepResult.panicked

/-- Outcome of a run of index_repository: Ok, an early return Err, or a
panic raised by one of the unwrap calls. -/
inductive IndexOutcome
  | ok
  | err (msg : String)
  | panicked
deriving DecidableEq

def IndexOutcome.isErr : IndexOutcome → Bool
  | .err _ => true
  | _ => false

/-- The outer loop of lines 59-116 over the remaining outer entries with the
current self.plugins: each built plugin is pushed immediately; an error or a
panic stops the loop and leaves the pushes made so far in place. -/
def indexAux (fs : Fs) (parse : String → Option Conf) :
    List (List String × FsEntry) → List Plugin → IndexOutcome × List Plugin
  | [], acc => (IndexOutcome.ok, acc)
  | oe :: rest, acc =>
    match processEntry fs parse oe with
    | StepResult.plugin p => indexAux fs parse rest (acc ++ [p])
    | StepResult.err m => (IndexOutcome.err m, acc)
    | StepResult.panicked => (IndexOutcome.panicked, acc)

/-- The outer WalkDir of lines 54-57: a max_depth 1 walk from the repository
root with filter_entry on not is_hidden.  It yields the root entry itself
first and then every non-hidden immediate child, plain files included; a
hidden root hides the entire walk. -/
def outerEntries (fs : Fs) : List (List String × FsEntry) :=
  if is_hidden (rootBase fs) then []
  else
    (fs.rootPath, FsEntry.dir (rootBase fs) fs.rootChildren) ::
      (fs.rootChildren.filter (fun c => !is_hidden c.name)).map
        (fun c => (fs.rootPath ++ [c.name], c))

/-- The Github struct of repository.rs lines 17-27. -/
structure Github where
  url : String
  name : String
  plugins : List Plugin
deriving DecidableEq

/-- Github::new, lines 41-48: empty plugin collection. -/
def Github.new (name : String) (url : String) : Github :=
  Github.mk url name []

/-- Github::index_repository, lines 52-118, as a function from the local
tree, the injected configuration parser and the current self.plugins to the
outcome together with the new self.plugins. -/
def Github.index_repository (fs : Fs) (parse : String → Option Conf)
    (plugins : List Plugin) : IndexOutcome × List Plugin :=
  indexAux fs parse (outerEntries fs) plugins

/-- Github::list, lines 148-150: Ok with a clone of self.plugins. -/
def Github.list (g : Github) : Except String (List Plugin) :=
  Except.ok g.plugins

/-- The scan loop inside Github::get_plugin_by_name, lines 154-159. -/
def lookupByName : List Plugin → String → Option Plugin
  | [], _ => none
  | p :: rest, nm => if p.name == nm then some p else lookupByName rest nm

/-- Github::get_plugin_by_name, lines 153-160. -/
def Github.get_plugin_by_name (g : Github) (nm : String) : Option Plugin :=
  lookupByName g.plugins nm

/-- Github::init, lines 128-142.  Modelled from the spec: acquisition (the
git clone and the recursive submodule fix-up of reckless_lib::utils, whose
source is not under src/) is an external collaborator; acq is the local tree
the clone produced or the clone error, and fix is the Result of
clone_recursive_fix, which the code computes before indexing and returns
only after a successful index_repository. -/
def Github.init (acq : Except String Fs) (fix : Except String Unit)
    (parse : String → Option Conf) (g : Github) : IndexOutcome × Github :=
  match acq with
  | Except.error e => (IndexOutcome.err e, g)
  | Except.ok fs =>
    match Github.index_repository fs parse g.plugins, fix with
    | (IndexOutcome.ok, ps), Except.ok _ => (IndexOutcome.ok, Github.mk g.url g.name ps)
    | (IndexOutcome.ok, ps), Except.error m => (IndexOutcome.err m, Github.mk g.url g.name ps)
    | (IndexOutcome.err m, ps), _ => (IndexOutcome.err m, Github.mk g.url g.name ps)
    | (IndexOutcome.panicked, ps), _ => (IndexOutcome.panicked, Github.mk g.url g.name ps)

/-- Spec-side characterization of language detection, section 4.2 of the
design: the last marker file encountered in enumeration order wins and the
result is Unknown when no marker is present. -/
def lastMarkerSpec (names : List String) : PluginLang :=
  match names.reverse.find? (fun x => (markerLang x).isSome) with
  | some m => (markerLang m).getD PluginLang.Unknown
  | none => PluginLang.Unknown

/-- The language component of one scan step. -/
def langStep (l : PluginLang) (nm : String) : PluginLang := (markerLang nm).getD l

/-- The language component of the whole scan. -/
def langFold (l : PluginLang) (names : List String) : PluginLang :=
  names.foldl langStep l

/-- A configuration parser that rejects every text. -/
def parseNone : String → Option Conf := fun _ => none

/-- A configuration parser that accepts every text. -/
def parseAll : String → Option Conf := fun s => some (Conf.mk s)

/-- A root that contains a single plain file child and no subdirectory. -/
def fsRootFile : Fs :=
  Fs.mk ["tmp", "repo"] [FsEntry.file ("plug.txt") (FileContent.utf8 (""))]

/-- A root with no children at all. -/
def fsEmptyRoot : Fs := Fs.mk ["tmp", "repo"] []

/-- A root with a well-formed plugin directory followed by a directory whose
configuration file exists but is not readable as text. -/
def fsPartial : Fs :=
  Fs.mk ["r", "repo"]
    [FsEntry.dir ("a") [FsEntry.file ("go.mod") (FileContent.utf8 (""))],
     FsEntry.dir ("b") [FsEntry.file ("reckless.yaml") FileContent.nonUtf8]]

/-- A root with one plugin directory whose configuration file exists and
reads as text but does not parse. -/
def fsBadConf : Fs :=
  Fs.mk ["r", "repo"]
    [FsEntry.dir ("a") [FsEntry.file ("reckless.yaml") (FileContent.utf8 ("bad"))]]

/-- A root with one plugin directory whose only configuration candidate is a
reckless.yml that exists and reads as text but does not parse. -/
def fsBadYml : Fs :=
  Fs.mk ["r", "repo"]
    [FsEntry.dir ("a") [FsEntry.file ("reckless.yml") (FileContent.utf8 ("bad"))]]

/-- A root with one Go plugin directory. -/
def fsTwice : Fs :=
  Fs.mk ["r", "repo"] [FsEntry.dir ("a") [FsEntry.file ("go.mod") (FileContent.utf8 (""))]]

/-- A root with one plugin directory holding both configuration candidates. -/
def fsBothConfs : Fs :=
  Fs.mk ["r", "repo"]
    [FsEntry.dir ("a")
      [FsEntry.file ("reckless.yaml") (FileContent.utf8 ("c1")),
       FsEntry.file ("reckless.yml") (FileContent.utf8 ("c2"))]]

/-- A root with one Go plugin directory, used for a run whose submodule
fix-up fails. -/
def fsFixFail : Fs :=
  Fs.mk ["r", "repo"] [FsEntry.dir ("a") [FsEntry.file ("go.mod") (FileContent.utf8 (""))]]

/-- Finding the last match from the right of a list is finding the last
element of its filtered form. -/
lemma reverse_find?_eq_getLast?_filter (p : String → Bool) (l : List String) :
    l.reverse.find? p = (l.filter p).getLast? := by
  induction l using List.reverseRecOn with
  | nil => rfl
  | append_singleton xs x ih =>
    rw [List.reverse_append]
    simp only [List.reverse_cons, List.reverse_nil, List.nil_append, List.singleton_append]
    cases h : p x with
    | true =>
      have hfind : List.find? p (x :: xs.reverse) = some x :=
        List.find?_cons_of_pos _ h
      have hflt : List.filter p [x] = [x] := by simp [List.filter, h]
      rw [hfind, List.filter_append, hflt, List.getLast?_concat]
    | false =>
      have hfind : List.find? p (x :: xs.reverse) = List.find? p xs.reverse :=
        List.find?_cons_of_neg _ (by simp [h])
      have hflt : List.filter p [x] = [] := by simp [List.filter, h]
      rw [hfind, ih, List.filter_append, hflt, List.append_nil]

/-- The overwrite fold of the language scan computes the last marker match,
or keeps the initial value when no marker is present. -/
lemma langFold_eq_find (names : List String) :
    ∀ l, langFold l names =
      match names.reverse.find? (fun x => (markerLang x).isSome) with
      | some m => (markerLang m).getD PluginLang.Unknown
      | none => l := by
  induction names using List.reverseRecOn with
  | nil => intro l; rfl
  | append_singleton xs x ih =>
    intro l
    rw [langFold, List.foldl_append, List.reverse_append]
    simp only [List.reverse_cons, List.reverse_nil, List.nil_append, List.singleton_append]
    cases h : (markerLang x).isSome with
    | true =>
      obtain ⟨v, hv⟩ := Option.isSome_iff_exists.mp h
      have hfind : List.find? (fun y => (markerLang y).isSome) (x :: xs.reverse) = some x :=
        List.find?_cons_of_pos _ h
      rw [hfind]
      simp [langStep, hv]
    | false =>
      have hx : markerLang x = none := Option.not_isSome_iff_eq_none.mp (by simp [h])
      have hfind : List.find? (fun y => (markerLang y).isSome) (x :: xs.reverse) =
          List.find? (fun y => (markerLang y).isSome) xs.reverse :=
        List.find?_cons_of_neg _ (by simp [h])
      rw [hfind]
      simpa [langStep, hx, langFold] using ih l

/-- The language component of the full scan fold is the language fold of
the scanned file names. -/
lemma foldl_scanStep_lang (es : List (List String × String)) :
    ∀ acc, ((es.foldl scanStep acc).2.2) = langFold acc.2.2 (es.map Prod.snd) := by
  induction es with
  | nil => intro acc; rfl
  | cons f t ih =>
    intro acc
    rw [List.foldl_cons, ih, List.map_cons]
    simp [scanStep, langFold, langStep]

/-- For a directory entry whose own base name is not a marker, the detected
language is the language fold over the names of its immediate children. -/
lemma scanInfo_dir_lang (path : List String) (n : String) (cs : List FsEntry)
    (hn : markerLang n = none) :
    (scanInfo path (FsEntry.dir n cs)).2.2 =
      langFold PluginLang.Unknown (cs.map FsEntry.name) := by
  rw [scanInfo, foldl_scanStep_lang]
  have h2 : (scanFiles path (FsEntry.dir n cs)).map Prod.snd = n :: cs.map FsEntry.name := by
    simp [scanFiles, List.map_map, Function.comp]
  rw [h2]
  simp [langFold, List.foldl_cons, langStep, hn]

/-- Starting the language fold at Unknown computes the spec-side last
marker characterization. -/
lemma langFold_unknown_eq_lastMarkerSpec (names : List String) :
    langFold PluginLang.Unknown names = lastMarkerSpec names := by
  rw [langFold_eq_find names PluginLang.Unknown, lastMarkerSpec]

/-- With no marker name present the spec-side characterization is
Unknown. -/
lemma lastMarkerSpec_of_no_marker (names : List String)
    (h : ∀ x ∈ names, markerLang x = none) : lastMarkerSpec names = PluginLang.Unknown := by
  rw [lastMarkerSpec]
  have hfind : names.reverse.find? (fun x => (markerLang x).isSome) = none := by
    rw [List.find?_eq_none]
    intro x hx
    rw [List.mem_reverse] at hx
    simp [h x hx]
  rw [hfind]

/-- The outer loop only ever appends to the collection it is given: its
result is the prior collection followed by the plugins of this run, whatever
the outcome. -/
lemma indexAux_append (fs : Fs) (parse : String → Option Conf)
    (es : List (List String × FsEntry)) :
    ∀ acc, indexAux fs parse es acc =
      ((indexAux fs parse es []).1, acc ++ (indexAux fs parse es []).2) := by
  induction es with
  | nil => intro acc; simp [indexAux]
  | cons oe rest ih =>
    intro acc
    cases h : processEntry fs parse oe with
    | plugin p =>
      simp only [indexAux, h, List.nil_append]
      rw [ih (acc ++ [p]), ih ([p])]
      simp [List.append_assoc]
    | err m => simp [indexAux, h]
    | panicked => simp [indexAux, h]

/-- The name scan of get_plugin_by_name finds nothing exactly when no
plugin has the requested name. -/
lemma lookupByName_none_iff (ps : List Plugin) (nm : String) :
    lookupByName ps nm = none ↔ ∀ p ∈ ps, p.name ≠ nm := by
  induction ps with
  | nil => simp [lookupByName]
  | cons a t ih =>
    by_cases h : a.name = nm
    · simp [lookupByName, h]
    · simp [lookupByName, h, ih]

/-- A hit of the name scan of get_plugin_by_name is an exact match and the
first one in insertion order. -/
lemma lookupByName_some (ps : List Plugin) (nm : String) :
    ∀ p, lookupByName ps nm = some p →
      p.name = nm ∧ ∃ l1 l2, ps = l1 ++ p :: l2 ∧ ∀ q ∈ l1, q.name ≠ nm := by
  induction ps with
  | nil => intro p h; cases h
  | cons a t ih =>
    intro p h
    by_cases ha : a.name = nm
    · have hap : a = p := by simpa [lookupByName, ha] using h
      subst hap
      exact ⟨ha, [], t, rfl, by simp⟩
    · have h2 : lookupByName t nm = some p := by simpa [lookupByName, ha] using h
      obtain ⟨hn, l1, l2, he, hall⟩ := ih p h2
      refine ⟨hn, a :: l1, l2, by rw [he]; rfl, ?_⟩
      intro q hq
      rcases List.mem_cons.mp hq with hq | hq
      · rw [hq]; exact ha
      · exact hall q hq

/-- C1: evaluation of the code at the failing input.  For a root whose only
entry is a plain file (no child directories at all), index_repository
succeeds and stores two Plugins, one for the root path itself and one for
the plain file, both carrying the name and path of the root directory,
whereas the claim demands a 1:1 correspondence with the non-hidden immediate
child directories, of which there are none. -/
theorem root_and_plain_file_produce_plugins :
    Github.index_repository fsRootFile parseNone [] =
      (IndexOutcome.ok,
        [Plugin.mk ("repo") (["tmp", "repo"]) PluginLang.Unknown none,
         Plugin.mk ("repo") (["tmp", "repo"]) PluginLang.Unknown none]) := by
  rfl

/-- C2: evaluation of the code at the failing input.  For a root directory
with zero children, index_repository succeeds but stores one Plugin for the
root entry itself, named after the parent directory of the root, instead of
the empty collection the claim demands. -/
theorem empty_root_yields_one_plugin :
    Github.index_repository fsEmptyRoot parseNone [] =
      (IndexOutcome.ok, [Plugin.mk ("tmp") (["tmp"]) PluginLang.Unknown none]) ∧
    (Github.index_repository fsEmptyRoot parseNone []).2 ≠ [] := by
  exact ⟨rfl, by decide⟩

/-- C3 counterexample: a run of index_repository over fsPartial returns an
error (the configuration file of the second plugin directory cannot be read
as text), yet the collection is not left as it was before the run: two
plugins pushed before the failure remain. -/
theorem partial_index_retained_on_error :
    (Github.index_repository fsPartial parseNone []).1.isErr = true ∧
    (Github.index_repository fsPartial parseNone []).2 ≠ [] := by
  exact ⟨rfl, by decide⟩

/-- C3 amended: indexing is not all-or-nothing.  index_repository only ever
appends to the collection it starts from: for every run, whatever the
outcome, the resulting collection is the prior collection followed by the
plugins built before the run ended, so a run that returns an error retains
the partially built index instead of restoring the previous state. -/
theorem index_repository_preserves_prior_collection :
    ∀ (fs : Fs) (parse : String → Option Conf) (ps : List Plugin),
      ∃ t, (Github.index_repository fs parse ps).2 = ps ++ t := by
  intro fs parse ps
  refine ⟨(indexAux fs parse (outerEntries fs) []).2, ?_⟩
  rw [Github.index_repository, indexAux_append fs parse (outerEntries fs) ps]

/-- C4 counterexample: at fsBadConf the configuration file of the plugin
directory exists and reads as text but fails to parse; the whole run ends in
the panic of the unwrap at line 95, which is not the error Result channel
used for the other fatal error kinds. -/
theorem config_parse_failure_panics :
    (Github.index_repository fsBadConf parseNone []).1 = IndexOutcome.panicked ∧
    (Github.index_repository fsBadConf parseNone []).1.isErr = false := by
  exact ⟨rfl, rfl⟩

/-- C4 amended: whenever the configuration loop reaches a candidate file
that exists and reads as text but fails to parse — the broken candidate is
reckless.yaml, or it is reckless.yml while reckless.yaml is absent, or it is
reckless.yml while reckless.yaml itself read and parsed — the loop result is
the parse failure, and a parse failure makes the entire indexing pass abort
at that entry: the plugin is not silently skipped, the outer loop stops with
only the previously pushed plugins, but the abort is the panic of the
serde_yaml unwrap rather than the error Result used for filesystem
failures.  (When an earlier candidate exists but cannot be read as text,
the pass aborts through that read error before the broken candidate is
parsed.) -/
theorem config_parse_failure_aborts_by_panic :
    ∀ (fs : Fs) (parse : String → Option Conf) (dp : List String),
      (∀ (n1 t1 : String),
        resolve fs (dp ++ ["reckless.yaml"]) = some (FsEntry.file n1 (FileContent.utf8 t1)) →
        parse t1 = none →
        loadConf fs parse dp = ConfResult.parseFail) ∧
      (∀ (n2 t2 : String),
        resolve fs (dp ++ ["reckless.yaml"]) = none →
        resolve fs (dp ++ ["reckless.yml"]) = some (FsEntry.file n2 (FileContent.utf8 t2)) →
        parse t2 = none →
        loadConf fs parse dp = ConfResult.parseFail) ∧
      (∀ (n1 t1 n2 t2 : String) (c1 : Conf),
        resolve fs (dp ++ ["reckless.yaml"]) = some (FsEntry.file n1 (FileContent.utf8 t1)) →
        parse t1 = some c1 →
        resolve fs (dp ++ ["reckless.yml"]) = some (FsEntry.file n2 (FileContent.utf8 t2)) →
        parse t2 = none →
        loadConf fs parse dp = ConfResult.parseFail) ∧
      (∀ (path : List String) (e : FsEntry) (rest : List (List String × FsEntry))
        (acc : List Plugin),
        loadConf fs parse (scanInfo path e).1 = ConfResult.parseFail →
        processEntry fs parse (path, e) = StepResult.panicked ∧
        indexAux fs parse ((path, e) :: rest) acc = (IndexOutcome.panicked, acc)) := by
  intro fs parse dp
  refine ⟨?_, ?_, ?_, ?_⟩
  · intro n1 t1 h1 h2
    simp [loadConf, loadConfAux, h1, h2]
  · intro n2 t2 h1 h2 h3
    simp [loadConf, loadConfAux, h1, h2, h3]
  · intro n1 t1 n2 t2 c1 h1 h2 h3 h4
    simp [loadConf, loadConfAux, h1, h2, h3, h4]
  · intro path e rest acc h
    have hp : processEntry fs parse (path, e) = StepResult.panicked := by
      simp [processEntry, h]
    exact ⟨hp, by simp [indexAux, hp]⟩

/-- C4 witness: the amended theorem applied at fsBadYml, where the only
configuration candidate is a broken reckless.yml: the loop ends in the parse
failure and the pass aborts at the entry by panic. -/
theorem config_parse_failure_aborts_by_panic_witness :
    loadConf fsBadYml parseNone (["r", "repo", "a"]) = ConfResult.parseFail ∧
    processEntry fsBadYml parseNone
        (["r", "repo", "a"],
          FsEntry.dir ("a") [FsEntry.file ("reckless.yml") (FileContent.utf8 ("bad"))]) =
      StepResult.panicked ∧
    indexAux fsBadYml parseNone
        [(["r", "repo", "a"],
          FsEntry.dir ("a") [FsEntry.file ("reckless.yml") (FileContent.utf8 ("bad"))])] [] =
      (IndexOutcome.panicked, []) :=
  have h := config_parse_failure_aborts_by_panic fsBadYml parseNone (["r", "repo", "a"])
  have hload : loadConf fsBadYml parseNone (["r", "repo", "a"]) = ConfResult.parseFail :=
    h.2.1 ("reckless.yml") ("bad") rfl rfl rfl
  have hstep := h.2.2.2 (["r", "repo", "a"])
    (FsEntry.dir ("a") [FsEntry.file ("reckless.yml") (FileContent.utf8 ("bad"))]) [] [] hload
  ⟨hload, hstep.1, hstep.2⟩

/-- C5: for every plugin directory whose own base name is not a marker file
name and whose marker-named entries are plain files, the detected language
is the MarkerTable mapping of the last marker file in enumeration order
among the immediate entries of the directory; with exactly one marker file
present it is that mapping, and with none present it is Unknown. -/
theorem language_is_last_marker_in_enumeration :
    ∀ (path : List String) (n : String) (cs : List FsEntry),
      markerLang n = none →
      (∀ c ∈ cs, (markerLang (FsEntry.name c)).isSome = true → FsEntry.isFile c = true) →
      (scanInfo path (FsEntry.dir n cs)).2.2 = lastMarkerSpec (cs.map FsEntry.name) ∧
      (∀ m, (cs.map FsEntry.name).filter (fun x => (markerLang x).isSome) = [m] →
        (scanInfo path (FsEntry.dir n cs)).2.2 = (markerLang m).getD PluginLang.Unknown) ∧
      ((∀ x ∈ cs.map FsEntry.name, markerLang x = none) →
        (scanInfo path (FsEntry.dir n cs)).2.2 = PluginLang.Unknown) := by
  intro path n cs hn _hfiles
  have hmain : (scanInfo path (FsEntry.dir n cs)).2.2 = lastMarkerSpec (cs.map FsEntry.name) := by
    rw [scanInfo_dir_lang path n cs hn, langFold_unknown_eq_lastMarkerSpec]
  refine ⟨hmain, ?_, ?_⟩
  · intro m hm
    rw [hmain, lastMarkerSpec, reverse_find?_eq_getLast?_filter, hm]
    rfl
  · intro hall
    rw [hmain, lastMarkerSpec_of_no_marker (cs.map FsEntry.name) hall]

/-- C5 witness: the theorem applied to a directory holding the Python and Go
marker files in that enumeration order; the later marker wins. -/
theorem language_is_last_marker_in_enumeration_witness :
    (scanInfo (["r", "repo", "p"])
        (FsEntry.dir ("plug")
          [FsEntry.file ("requirements.txt") (FileContent.utf8 ("")),
           FsEntry.file ("go.mod") (FileContent.utf8 (""))])).2.2 =
      lastMarkerSpec (["requirements.txt", "go.mod"]) ∧
    lastMarkerSpec (["requirements.txt", "go.mod"]) = PluginLang.Go :=
  ⟨(language_is_last_marker_in_enumeration (["r", "repo", "p"]) ("plug")
      ([FsEntry.file ("requirements.txt") (FileContent.utf8 ("")),
        FsEntry.file ("go.mod") (FileContent.utf8 (""))]) rfl (by decide)).1,
   rfl⟩

/-- C6: the configuration stored for a plugin directory is the parse of the
last existing candidate in the fixed list reckless.yaml then reckless.yml:
when both candidates exist and parse, the loaded configuration is the one
parsed from reckless.yml; when neither exists the result is no
configuration and no error; and an Ok configuration result is stored
unchanged in the Plugin the entry produces. -/
theorem config_last_existing_candidate_wins :
    ∀ (fs : Fs) (parse : String → Option Conf) (dp : List String),
      (∀ (n1 n2 t1 t2 : String) (c1 c2 : Conf),
        resolve fs (dp ++ ["reckless.yaml"]) = some (FsEntry.file n1 (FileContent.utf8 t1)) →
        parse t1 = some c1 →
        resolve fs (dp ++ ["reckless.yml"]) = some (FsEntry.file n2 (FileContent.utf8 t2)) →
        parse t2 = some c2 →
        loadConf fs parse dp = ConfResult.ok (some c2)) ∧
      (resolve fs (dp ++ ["reckless.yaml"]) = none →
        resolve fs (dp ++ ["reckless.yml"]) = none →
        loadConf fs parse dp = ConfResult.ok none) ∧
      (∀ (path : List String) (e : FsEntry) (o : Option Conf),
        loadConf fs parse (scanInfo path e).1 = ConfResult.ok o →
        processEntry fs parse (path, e) =
          StepResult.plugin
            (Plugin.mk (scanInfo path e).2.1 (scanInfo path e).1 (scanInfo path e).2.2 o)) := by
  intro fs parse dp
  refine ⟨?_, ?_, ?_⟩
  · intro n1 n2 t1 t2 c1 c2 h1 h2 h3 h4
    simp [loadConf, loadConfAux, h1, h2, h3, h4]
  · intro h1 h2
    simp [loadConf, loadConfAux, h1, h2]
  · intro path e o h
    simp [processEntry, h]

/-- C6 witness: the theorem applied at fsBothConfs, where both candidates
exist and parse; the reckless.yml text wins. -/
theorem config_last_existing_candidate_wins_witness :
    loadConf fsBothConfs parseAll (["r", "repo", "a"]) =
      ConfResult.ok (some (Conf.mk ("c2"))) :=
  (config_last_existing_candidate_wins fsBothConfs parseAll (["r", "repo", "a"])).1
    ("reckless.yaml") ("reckless.yml") ("c1") ("c2") (Conf.mk ("c1")) (Conf.mk ("c2"))
    rfl rfl rfl rfl

/-- C7 counterexample: running index_repository twice over the unchanged
fsTwice does not yield the same collection both times: the second run
returns the first collection with a second copy appended, because the code
never clears self.plugins. -/
theorem reindex_accumulates :
    (Github.index_repository fsTwice parseNone []).1 = IndexOutcome.ok ∧
    (Github.index_repository fsTwice parseNone
        (Github.index_repository fsTwice parseNone []).2).2 ≠
      (Github.index_repository fsTwice parseNone []).2 := by
  exact ⟨rfl, by decide⟩

/-- C7 amended: re-indexing accumulates rather than overwrites.  The batch a
run appends does not depend on the collection it starts from, so running
index_repository twice over the same unchanged tree from an empty collection
yields the single-run batch followed by a structurally identical second
copy of itself. -/
theorem reindex_appends_identical_batch :
    ∀ (fs : Fs) (parse : String → Option Conf) (b : List Plugin),
      Github.index_repository fs parse [] = (IndexOutcome.ok, b) →
      Github.index_repository fs parse b = (IndexOutcome.ok, b ++ b) := by
  intro fs parse b h
  rw [Github.index_repository] at h ⊢
  rw [indexAux_append fs parse (outerEntries fs) b, h]

/-- C7 witness: the amended theorem applied at fsTwice. -/
theorem reindex_appends_identical_batch_witness :
    Github.index_repository fsTwice parseNone
        ([Plugin.mk ("repo") (["r", "repo"]) PluginLang.Unknown none,
          Plugin.mk ("a") (["r", "repo", "a"]) PluginLang.Go none]) =
      (IndexOutcome.ok,
        ([Plugin.mk ("repo") (["r", "repo"]) PluginLang.Unknown none,
          Plugin.mk ("a") (["r", "repo", "a"]) PluginLang.Go none] ++
         [Plugin.mk ("repo") (["r", "repo"]) PluginLang.Unknown none,
          Plugin.mk ("a") (["r", "repo", "a"]) PluginLang.Go none])) :=
  reindex_appends_identical_batch fsTwice parseNone
    ([Plugin.mk ("repo") (["r", "repo"]) PluginLang.Unknown none,
      Plugin.mk ("a") (["r", "repo", "a"]) PluginLang.Go none]) rfl

/-- C8: get_plugin_by_name performs an exact, case-sensitive comparison on
the plugin name; it returns none exactly when no stored plugin has the
requested name (reporting absence instead of failing), and a hit is the
first plugin in insertion order whose name equals the requested one. -/
theorem get_plugin_by_name_first_exact_match :
    ∀ (g : Github) (nm : String),
      (Github.get_plugin_by_name g nm = none ↔ ∀ p ∈ g.plugins, p.name ≠ nm) ∧
      (∀ p, Github.get_plugin_by_name g nm = some p →
        p.name = nm ∧ ∃ l1 l2, g.plugins = l1 ++ p :: l2 ∧ ∀ q ∈ l1, q.name ≠ nm) := by
  intro g nm
  exact ⟨lookupByName_none_iff g.plugins nm, lookupByName_some g.plugins nm⟩

/-- C8 witness: the theorem applied to a repository storing two plugins of
the same name; the hit is the first of the two in insertion order. -/
theorem get_plugin_by_name_first_exact_match_witness :
    (Plugin.mk ("a") ([]) PluginLang.Go none).name = ("a") ∧
    ∃ l1 l2,
      [Plugin.mk ("a") ([]) PluginLang.Go none,
       Plugin.mk ("a") ([]) PluginLang.Rust none] =
        l1 ++ (Plugin.mk ("a") ([]) PluginLang.Go none) :: l2 ∧
      ∀ q ∈ l1, q.name ≠ ("a") :=
  (get_plugin_by_name_first_exact_match
      (Github.mk ("u") ("n")
        ([Plugin.mk ("a") ([]) PluginLang.Go none,
          Plugin.mk ("a") ([]) PluginLang.Rust none]))
      ("a")).2 (Plugin.mk ("a") ([]) PluginLang.Go none) rfl

/-- C9 counterexample: an init run whose clone succeeds and whose indexing
succeeds but whose recursive submodule fix-up fails returns an error, yet
the repository is left with a non-empty collection: list does not return an
empty collection and get_plugin_by_name finds a plugin, contradicting the
claim for a Repository whose init failed. -/
theorem failed_init_leaves_visible_plugins :
    (Github.init (Except.ok fsFixFail) (Except.error ("fix failed")) parseNone
        (Github.new ("n") ("u"))).1 = IndexOutcome.err ("fix failed") ∧
    (Github.init (Except.ok fsFixFail) (Except.error ("fix failed")) parseNone
        (Github.new ("n") ("u"))).2.plugins ≠ [] ∧
    Github.get_plugin_by_name
        (Github.init (Except.ok fsFixFail) (Except.error ("fix failed")) parseNone
          (Github.new ("n") ("u"))).2 ("a") ≠ none := by
  refine ⟨rfl, by decide, by decide⟩

/-- C9 amended: on a freshly constructed Repository, and on one whose init
failed during acquisition (the clone itself), list returns an empty
collection and get_plugin_by_name returns not-found for every name, and
neither operation errors; an init that fails after indexing ran may instead
leave plugins visible. -/
theorem fresh_or_clone_failed_repo_is_empty :
    ∀ (nm url e anyName : String) (fix : Except String Unit)
      (parse : String → Option Conf),
      Github.list (Github.new nm url) = Except.ok [] ∧
      Github.get_plugin_by_name (Github.new nm url) anyName = none ∧
      Github.init (Except.error e) fix parse (Github.new nm url) =
        (IndexOutcome.err e, Github.new nm url) ∧
      Github.list (Github.init (Except.error e) fix parse (Github.new nm url)).2 =
        Except.ok [] ∧
      Github.get_plugin_by_name
        (Github.init (Except.error e) fix parse (Github.new nm url)).2 anyName = none := by
  intro nm url e anyName fix parse
  exact ⟨rfl, rfl, rfl, rfl, rfl⟩

/-- C10: marker matching is byte-exact and case-sensitive.  For a plugin
directory whose immediate entries include the capitalized Cargo.toml but
none of the six lowercase marker names (and whose own base name is not a
marker), the detected language is Unknown and not Rust; the lowercase
cargo.toml is the name that maps to Rust. -/
theorem capitalized_cargo_manifest_is_not_rust :
    ∀ (path : List String) (n : String) (cs : List FsEntry),
      markerLang n = none →
      ("Cargo.toml") ∈ cs.map FsEntry.name →
      (∀ x ∈ cs.map FsEntry.name, markerLang x = none) →
      (scanInfo path (FsEntry.dir n cs)).2.2 = PluginLang.Unknown ∧
      markerLang ("Cargo.toml") = none ∧
      markerLang ("cargo.toml") = some PluginLang.Rust := by
  intro path n cs hn _hmem hall
  refine ⟨?_, rfl, rfl⟩
  rw [scanInfo_dir_lang path n cs hn, langFold_unknown_eq_lastMarkerSpec,
    lastMarkerSpec_of_no_marker (cs.map FsEntry.name) hall]

/-- C10 witness: the theorem applied to a directory holding only the
capitalized Cargo.toml. -/
theorem capitalized_cargo_manifest_is_not_rust_witness :
    (scanInfo (["r", "repo", "p"])
        (FsEntry.dir ("plug") [FsEntry.file ("Cargo.toml") (FileContent.utf8 (""))])).2.2 =
      PluginLang.Unknown ∧
    markerLang ("Cargo.toml") = none ∧
    markerLang ("cargo.toml") = some PluginLang.Rust :=
  capitalized_cargo_manifest_is_not_rust (["r", "repo", "p"]) ("plug")
    ([FsEntry.file ("Cargo.toml") (FileContent.utf8 (""))]) rfl (by decide) (by decide)

end Reckless
